import Mathlib

/-!
Verification of the incoming-message-parser repository (src/index.ts).

The embedding is byte-level: a Node `Buffer` is a `List Nat` of byte values,
a JavaScript string is a `List Char` (header strings) or, for the part header
text that the source only probes with ASCII patterns, the undecoded byte list.
Fallible code returns `Except String`, and the delimiter scan loop of
`parseMultipart` — whose termination is exactly what is at issue — is given
explicit fuel: `none` means the loop has not finished within the given number
of iterations, and a state that steps to itself yields `none` for every fuel,
which is how non-termination of the source loop is expressed.
-/

namespace IMP

/-- Byte list of a string: each character to its code point. This coincides
with the Buffer/utf8 bytes for the ASCII data used throughout. -/
def strBytes (s : String) : List Nat := s.toList.map Char.toNat

/-- Byte list of a list of characters (Buffer.from on an ASCII string). -/
def charsBytes (l : List Char) : List Nat := l.map Char.toNat

/-- The FileData interface of src/index.ts: body bytes, file name, transfer
encoding and sniffed MIME type. -/
structure FileData where
  body : List Nat
  fileName : List Nat
  encoding : List Nat
  mimeType : String
  deriving DecidableEq, Repr

/-- One value of the parsed multipart mapping: a plain text field (stored as
its body bytes, the source calls body.toString()) or a file attachment. -/
inductive Entry where
  | field : List Nat → Entry
  | file : FileData → Entry
  deriving DecidableEq, Repr

/-- The result mapping of parseMultipart: a JavaScript object modelled as an
association list in insertion order with unique keys. -/
abbrev FormData := List (List Nat × Entry)

/-- Lower-case hex digit of a value below 16 (as produced by
Buffer.toString of the source, always lower case). -/
def hexDigit (n : Nat) : Char :=
  match n with
  | 0 => '0' | 1 => '1' | 2 => '2' | 3 => '3' | 4 => '4'
  | 5 => '5' | 6 => '6' | 7 => '7' | 8 => '8' | 9 => '9'
  | 10 => 'a' | 11 => 'b' | 12 => 'c' | 13 => 'd' | 14 => 'e'
  | _ => 'f'

/-- Two hex digits of one byte. -/
def hexByte (b : Nat) : List Char := [hexDigit (b / 16 % 16), hexDigit (b % 16)]

/-- Hex representation of a byte list, as Buffer.toString with encoding hex. -/
def bytesHex (l : List Nat) : List Char := (l.map hexByte).flatten

/-- The signature table of getMimeTypeFromBuffer, in the source's insertion
order (all keys already lower case, as after the source's toLowerCase). -/
def signatures : List (List Char × String) :=
  [("89504e47".toList, "image/png"),
   ("474946383761".toList, "image/gif"),
   ("474946383961".toList, "image/gif"),
   ("ffd8".toList, "image/jpeg"),
   ("25504446".toList, "application/pdf"),
   ("504b0304".toList, "application/zip"),
   ("2e7261fd".toList, "audio/vnd.rn-realaudio"),
   ("494433".toList, "audio/mp3"),
   ("fffb".toList, "audio/mp3"),
   ("4f676753".toList, "audio/ogg"),
   ("1a45dfa3".toList, "video/webm"),
   ("000001ba".toList, "video/mpeg"),
   ("000001b3".toList, "video/mpeg"),
   ("664c6143".toList, "audio/flac"),
   ("41564920".toList, "video/avi"),
   ("4d546864".toList, "audio/midi")]

/-- getMimeTypeFromBuffer of src/index.ts: hex of at most the first 16 bytes,
first signature whose pattern prefixes it, then the RIFF special case for
buffers of more than 11 bytes (WAVE or AVI at byte offset 8 to 12), otherwise
the thrown error, modelled as Except.error. -/
def getMimeTypeFromBuffer (buffer : List Nat) : Except String String :=
  match signatures.find? (fun p => p.1.isPrefixOf (bytesHex (buffer.take 16))) with
  | some p => Except.ok p.2
  | none =>
    if ("52494646".toList.isPrefixOf (bytesHex (buffer.take 16))) ∧ 11 < buffer.length then
      if bytesHex ((buffer.drop 8).take 4) = "57415645".toList then Except.ok "audio/wav"
      else if bytesHex ((buffer.drop 8).take 4) = "41564920".toList then Except.ok "video/avi"
      else Except.error "Mime type unknown"
    else Except.error "Mime type unknown"

/-- Buffer.indexOf needle byteOffset: the smallest index, at least start, where
pat occurs in hay as a contiguous sublist; none is the source's minus one. -/
def indexOf? (hay pat : List Nat) (start : Nat) : Option Nat :=
  (List.range (hay.length + 1)).find? (fun i => decide (start ≤ i) && pat.isPrefixOf (hay.drop i))

/-- Does pat occur in s (String.includes of the source)? -/
def containsSub (s pat : List Nat) : Bool := (indexOf? s pat 0).isSome

/-- One position of the regex marker-then-quoted-capture patterns of the
source, such as the marker bytes of the text before a double quote: at this
position the marker must match, at least one non-quote byte must follow it and
a closing double quote (byte 34) must exist; the capture is the maximal run of
non-quote bytes, as for a greedy character class excluding the quote. -/
def tryQuotedAt (marker s : List Nat) : Option (List Nat) :=
  if marker.isPrefixOf s then
    let cap := (s.drop marker.length).takeWhile (fun b => b != 34)
    if cap.isEmpty then none
    else if cap.length = (s.drop marker.length).length then none
    else some cap
  else none

/-- Leftmost match of a marker-then-quoted-capture regex, scanning start
positions left to right as a backtracking regex engine does. -/
def extractQuoted (marker : List Nat) : List Nat → Option (List Nat)
  | [] => none
  | b :: rest =>
    match tryQuotedAt marker (b :: rest) with
    | some cap => some cap
    | none => extractQuoted marker rest

/-- ASCII whitespace bytes of the regex class backslash-s (the source only
meets ASCII here). -/
def isSpaceByte (b : Nat) : Bool := b == 32 || b == 9 || b == 10 || b == 11 || b == 12 || b == 13

/-- One position of the Content-Transfer-Encoding pattern: marker then a
maximal nonempty run of non-whitespace bytes. -/
def tryTokenAt (marker s : List Nat) : Option (List Nat) :=
  if marker.isPrefixOf s then
    let cap := (s.drop marker.length).takeWhile (fun b => !isSpaceByte b)
    if cap.isEmpty then none else some cap
  else none

/-- Leftmost match of the marker-then-token regex. -/
def extractToken (marker : List Nat) : List Nat → Option (List Nat)
  | [] => none
  | b :: rest =>
    match tryTokenAt marker (b :: rest) with
    | some cap => some cap
    | none => extractToken marker rest

/-- Marker bytes of the field name pattern of line 75 of the source. -/
def nameMarker : List Nat := strBytes ("name=\"")

/-- Marker bytes of the filename pattern of lines 78 and 79 of the source. -/
def fnMarker : List Nat := strBytes ("filename=\"")

/-- Marker bytes of the transfer encoding pattern of line 80 of the source. -/
def cteMarker : List Nat := strBytes ("Content-Transfer-Encoding: ")

/-- The double CRLF divider between a part's header block and its body. -/
def crlf2 : List Nat := strBytes ("\r\n\r\n")

/-- JavaScript object assignment data[name] = v on an insertion-ordered
object: replace the value in place if the key exists, else append. -/
def upsert : FormData → List Nat → Entry → FormData
  | [], k, v => [(k, v)]
  | p :: rest, k, v => if p.1 = k then (k, v) :: rest else p :: upsert rest k v

/-- Property lookup on the object modelled by the association list. -/
def lookupKey (k : List Nat) : FormData → Option Entry
  | [] => none
  | p :: rest => if p.1 = k then some p.2 else lookupKey k rest

/-- The part segment between two delimiter occurrences: subarray from the end
of the delimiter found at idx up to the start of the one at endIdx. -/
def segAt (full bb : List Nat) (idx endIdx : Nat) : List Nat :=
  (full.drop (idx + bb.length)).take (endIdx - (idx + bb.length))

/-- The header text of a part: the bytes before the first double CRLF. -/
def partInfo (part : List Nat) (splitIdx : Nat) : List Nat := part.take splitIdx

/-- The body of a part: subarray from after the divider up to the segment's
length minus two, cutting the trailing CRLF before the next delimiter. -/
def partBody (part : List Nat) (splitIdx : Nat) : List Nat :=
  (part.drop (splitIdx + 4)).take (part.length - 2 - (splitIdx + 4))

/-- Lines 71 to 90 of the source, the per-segment work of the scan loop:
locate the divider (skip the segment if absent), extract the name (skip if
absent), then classify: with a filename marker build a FileData whose fileName
is the filename capture or empty, whose encoding is the transfer encoding
capture or 7bit and whose mimeType is sniffed from the body (a sniffing error
aborts, as the uncaught throw does); otherwise a plain field. ok none is a
skipped (malformed) segment. -/
def classifySegment (part : List Nat) : Except String (Option (List Nat × Entry)) :=
  match indexOf? part crlf2 0 with
  | none => Except.ok none
  | some splitIdx =>
    match extractQuoted nameMarker (partInfo part splitIdx) with
    | none => Except.ok none
    | some nm =>
      if containsSub (partInfo part splitIdx) fnMarker then
        match getMimeTypeFromBuffer (partBody part splitIdx) with
        | Except.error e => Except.error e
        | Except.ok m =>
          Except.ok (some (nm, Entry.file
            ⟨partBody part splitIdx,
             (extractQuoted fnMarker (partInfo part splitIdx)).getD [],
             (extractToken cteMarker (partInfo part splitIdx)).getD (strBytes ("7bit")),
             m⟩))
      else Except.ok (some (nm, Entry.field (partBody part splitIdx)))

/-- The delimiter scan loop of parseMultipart (lines 65 to 93), with fuel.
State is exactly the source's mutable state (lastIdx, idx, data); idx none is
the source's minus one. A skipped segment leaves the whole state unchanged,
as the source's continue does (it does not advance idx); a recorded segment
sets lastIdx to endIdx and searches the next delimiter from there. -/
def multipartLoop (full bb : List Nat) : Nat → Nat → Option Nat → FormData → Option (Except String FormData)
  | 0, _, _, _ => none
  | fuel + 1, lastIdx, idxO, data =>
    match idxO with
    | none => some (Except.ok data)
    | some idx =>
      match indexOf? full bb (idx + 1) with
      | none => some (Except.ok data)
      | some endIdx =>
        match classifySegment (segAt full bb idx endIdx) with
        | Except.error e => some (Except.error e)
        | Except.ok none => multipartLoop full bb fuel lastIdx (some idx) data
        | Except.ok (some (nm, entry)) =>
          multipartLoop full bb fuel endIdx (indexOf? full bb endIdx) (upsert data nm entry)

/-- The scan loop again, additionally carrying the chronological trace of the
recorded (name, entry) pairs, in the body order in which the source assigns
them. Used only to state and prove properties; agreement with multipartLoop
is proved below. -/
def multipartLoopTr (full bb : List Nat) : Nat → Nat → Option Nat → FormData → List (List Nat × Entry) → Option (Except String (FormData × List (List Nat × Entry)))
  | 0, _, _, _, _ => none
  | fuel + 1, lastIdx, idxO, data, tr =>
    match idxO with
    | none => some (Except.ok (data, tr))
    | some idx =>
      match indexOf? full bb (idx + 1) with
      | none => some (Except.ok (data, tr))
      | some endIdx =>
        match classifySegment (segAt full bb idx endIdx) with
        | Except.error e => some (Except.error e)
        | Except.ok none => multipartLoopTr full bb fuel lastIdx (some idx) data tr
        | Except.ok (some (nm, entry)) =>
          multipartLoopTr full bb fuel endIdx (indexOf? full bb endIdx)
            (upsert data nm entry) (tr ++ [(nm, entry)])

/-- Case-insensitive match of an already-lower-case pattern at the head of a
character list, as the i flag of the boundary regex gives. -/
def ciPrefix : List Char → List Char → Bool
  | [], _ => true
  | _ :: _, [] => false
  | p :: ps, c :: cs => (p == c.toLower) && ciPrefix ps cs

/-- The literal of the boundary pattern of line 53 of the source. -/
def boundaryPat : List Char := "boundary=".toList

/-- One position of the boundary regex: case-insensitive marker, then a
nonempty maximal run of non-semicolon characters (the greedy capture). -/
def tryBoundaryAt (s : List Char) : Option (List Char) :=
  if ciPrefix boundaryPat s then
    let cap := (s.drop boundaryPat.length).takeWhile (fun c => c != ';')
    if cap.isEmpty then none else some cap
  else none

/-- Leftmost match of the boundary regex over the content type header. -/
def findBoundary : List Char → Option (List Char)
  | [] => none
  | c :: rest =>
    match tryBoundaryAt (c :: rest) with
    | some cap => some cap
    | none => findBoundary rest

/-- parseJson of src/index.ts, up to the standard JSON decoder: the guard of
line 24 rejects a header that does not start with application/json before any
stream handling; otherwise the stream chunks are concatenated and handed to
JSON.parse. JSON.parse is the platform's decoder, not code of this repository,
so the ok value here is the collected text (as bytes) that would be decoded. -/
def parseJson (hdr : List Char) (chunks : List (List Nat)) : Except String (List Nat) :=
  if ("application/json".toList.isPrefixOf hdr) then Except.ok chunks.flatten
  else Except.error "Invalid content type"

/-- parseMultipart of src/index.ts on the fully collected body buffer: the
content type guard of line 51, the boundary extraction of lines 53 to 55, then
the scan loop on the delimiter bytes of two hyphens and the boundary. The fuel
body.length + 2 covers every terminating run, because each recorded segment
strictly advances idx, which is bounded by the buffer length; none therefore
means the loop is stuck re-testing one state forever. -/
def parseMultipart (hdr : List Char) (body : List Nat) : Option (Except String FormData) :=
  if ("multipart/form-data".toList.isPrefixOf hdr) then
    match findBoundary hdr with
    | none => some (Except.error "No boundary found")
    | some b =>
      multipartLoop body (strBytes ("--") ++ charsBytes b) (body.length + 2)
        0 (indexOf? body (strBytes ("--") ++ charsBytes b) 0) []
  else some (Except.error "Invalid content type")

/-- parseMultipart with the recording trace, for stating body-order facts. -/
def parseMultipartTr (hdr : List Char) (body : List Nat) : Option (Except String (FormData × List (List Nat × Entry))) :=
  if ("multipart/form-data".toList.isPrefixOf hdr) then
    match findBoundary hdr with
    | none => some (Except.error "No boundary found")
    | some b =>
      multipartLoopTr body (strBytes ("--") ++ charsBytes b) (body.length + 2)
        0 (indexOf? body (strBytes ("--") ++ charsBytes b) 0) [] []
  else some (Except.error "Invalid content type")

/-! Concrete inputs used by the individual claims. -/

/-- Header with boundary B. -/
def hdrB : List Char := "multipart/form-data; boundary=B".toList

/-- Delimiter bytes for boundary B. -/
def bbB : List Nat := strBytes ("--B")

/-- C1 failing input: the segment between the two delimiter occurrences is
junk with no double-CRLF divider. -/
def c1body : List Nat := strBytes ("--Bjunk--B")

/-- C2 failing input: a malformed (divider-less) segment followed by a fully
well-formed field part named a with value hello. -/
def c2body : List Nat :=
  strBytes ("--Bjunk--B\r\nContent-Disposition: form-data; name=\"a\"\r\n\r\nhello\r\n--B--")

/-- C3 counterexample input: a malformed segment, then a file part whose four
body bytes 00 01 02 03 match no signature and are not RIFF. -/
def c3body : List Nat :=
  strBytes ("--Bjunk--B\r\nContent-Disposition: form-data; name=\"a\"; filename=\"x.bin\"\r\n\r\n")
  ++ [0, 1, 2, 3] ++ strBytes ("\r\n--B--")

/-- C3 witness buffer: one well-formed file part with unsniffable bytes. -/
def c3wfull : List Nat :=
  strBytes ("--Y\r\nContent-Disposition: form-data; name=\"f\"; filename=\"x\"\r\n\r\n")
  ++ [0, 1, 2, 3] ++ strBytes ("\r\n--Y--")

/-- Delimiter bytes for boundary Y. -/
def bbY : List Nat := strBytes ("--Y")

/-- C4 input header. -/
def c4hdr : List Char := "multipart/form-data; boundary=X".toList

/-- C4 input body: field a with value hello, then file b named f.png whose
body is the eight PNG signature bytes 89 50 4E 47 0D 0A 1A 0A. -/
def c4body : List Nat :=
  strBytes ("--X\r\nContent-Disposition: form-data; name=\"a\"\r\n\r\nhello\r\n--X\r\nContent-Disposition: form-data; name=\"b\"; filename=\"f.png\"\r\n\r\n")
  ++ [137, 80, 78, 71, 13, 10, 26, 10] ++ strBytes ("\r\n--X--")

/-- C6 input header. -/
def c6hdr : List Char := "multipart/form-data; boundary=Q".toList

/-- C6 input body: two field parts both named x, values first then second. -/
def c6body : List Nat :=
  strBytes ("--Q\r\nContent-Disposition: form-data; name=\"x\"\r\n\r\nfirst\r\n--Q\r\nContent-Disposition: form-data; name=\"x\"\r\n\r\nsecond\r\n--Q--")

/-- C9 counterexample header. -/
def c9hdr : List Char := "multipart/form-data; boundary=Z".toList

/-- C9 counterexample body: the part header carries both an empty filename
attribute and a later non-empty one. -/
def c9body : List Nat :=
  strBytes ("--Z\r\nContent-Disposition: form-data; name=\"a\"; filename=\"\"; filename=\"b\"\r\n\r\n")
  ++ [137, 80, 78, 71, 13, 10, 26, 10] ++ strBytes ("\r\n--Z--")

/-- C9 witness buffer: a single part whose only filename attribute is empty. -/
def c9wfull : List Nat :=
  strBytes ("--Z\r\nContent-Disposition: form-data; name=\"a\"; filename=\"\"\r\n\r\n")
  ++ [137, 80, 78, 71, 13, 10, 26, 10] ++ strBytes ("\r\n--Z--")

/-- Delimiter bytes for boundary Z. -/
def bbZ : List Nat := strBytes ("--Z")

/-- C10 witness header. -/
def c10hdr : List Char := "multipart/form-data; boundary=W".toList

/-- C10 witness body: one field part named k with value v. -/
def c10body : List Nat := strBytes ("--W\r\nContent-Disposition: form-data; name=\"k\"\r\n\r\nv\r\n--W--")

/-! Claims C1 and C2: the malformed-part skip of the scan loop. -/

/-- C1: the claim says the delimiter scan loop of parseMultipart always
terminates, re-anchoring the search after a segment with no divider. The code
does the opposite: on the buffer dash dash B junk dash dash B (boundary B) the
continue statement leaves lastIdx, idx and data unchanged, so the loop state
repeats forever — for every amount of fuel the loop is unfinished, and the
whole parse never settles. -/
theorem C1_malformed_segment_loops_forever :
    (∀ fuel, multipartLoop c1body bbB fuel 0 (indexOf? c1body bbB 0) [] = none) ∧
    parseMultipart hdrB c1body = none := by
  constructor
  · intro fuel
    induction fuel with
    | zero => rfl
    | succ n ih => exact ih
  · rfl

/-- C2: the claim says a part segment lacking the divider is silently skipped
and the parse still resolves with the well-formed parts. On a body holding a
divider-less segment and a well-formed field part named a, the code instead
spins forever on the malformed segment: the loop is unfinished for every fuel
and parseMultipart never resolves at all. -/
theorem C2_malformed_part_is_fatal_hang :
    (∀ fuel, multipartLoop c2body bbB fuel 0 (indexOf? c2body bbB 0) [] = none) ∧
    parseMultipart hdrB c2body = none := by
  constructor
  · intro fuel
    induction fuel with
    | zero => rfl
    | succ n ih => exact ih
  · rfl

/-! Claim C4: the two-part example body. -/

set_option maxRecDepth 20000 in
/-- C4: on boundary X with one field part a valued hello and one file part b,
filename f.png, no transfer encoding header and the PNG signature bytes as
body, parseMultipart resolves to the mapping a to hello and b to the FileData
with fileName f.png, encoding 7bit, mimeType image/png and those body bytes. -/
theorem C4_example_parse :
    parseMultipart c4hdr c4body =
      some (Except.ok
        [(strBytes ("a"), Entry.field (strBytes ("hello"))),
         (strBytes ("b"), Entry.file
           ⟨[137, 80, 78, 71, 13, 10, 26, 10],
            strBytes ("f.png"), strBytes ("7bit"), "image/png"⟩)]) := by
  rfl

/-! Claims C7 and C8: the header guards. -/

/-- C7: a multipart content type header with no usable boundary parameter (the
case-insensitive boundary equals pattern with a nonempty non-semicolon capture
finds nothing) makes parseMultipart fail with No boundary found, for every
body — the result does not depend on the stream at all. -/
theorem C7_missing_boundary_rejects :
    ∀ (hdr : List Char) (body : List Nat),
      ("multipart/form-data".toList.isPrefixOf hdr) = true →
      findBoundary hdr = none →
      parseMultipart hdr body = some (Except.error "No boundary found") := by
  intro hdr body h1 h2
  unfold parseMultipart
  rw [if_pos h1, h2]

/-- Witness for C7 at the bare header multipart/form-data and an arbitrary
concrete body. -/
theorem C7_missing_boundary_rejects_witness :
    parseMultipart ("multipart/form-data".toList) (strBytes ("zz")) =
      some (Except.error "No boundary found") :=
  C7_missing_boundary_rejects ("multipart/form-data".toList) (strBytes ("zz"))
    (by decide) (by decide)

/-- C8: a content type header that does not start with application/json makes
parseJson fail with Invalid content type, for every chunk list — the stream
is never consulted. -/
theorem C8_wrong_content_type_rejects :
    ∀ (hdr : List Char) (chunks : List (List Nat)),
      ("application/json".toList.isPrefixOf hdr) = false →
      parseJson hdr chunks = Except.error "Invalid content type" := by
  intro hdr chunks h
  unfold parseJson
  rw [if_neg]
  rw [h]
  decide

/-- Witness for C8 at the header text/plain and a concrete nonempty stream. -/
theorem C8_wrong_content_type_rejects_witness :
    parseJson ("text/plain".toList) [[104, 105]] = Except.error "Invalid content type" :=
  C8_wrong_content_type_rejects ("text/plain".toList) [[104, 105]] (by decide)

/-! Claim C5: the RIFF special case of the MIME sniffer. Helper lemmas first:
the hex encoding is injective on byte values, so differing bytes at offset
8 to 12 give differing hex substrings. -/

/-- hexDigit is injective below 16. -/
theorem hexDigit_inj16 : ∀ a b : Nat, a < 16 → b < 16 → hexDigit a = hexDigit b → a = b := by
  intro a b ha hb
  interval_cases a <;> interval_cases b <;> decide

/-- hexByte is injective on byte values. -/
theorem hexByte_inj256 {a b : Nat} (ha : a < 256) (hb : b < 256)
    (h : hexByte a = hexByte b) : a = b := by
  simp only [hexByte, List.cons.injEq, and_true] at h
  obtain ⟨h1, h2⟩ := h
  have e1 := hexDigit_inj16 _ _ (Nat.mod_lt _ (by omega)) (Nat.mod_lt _ (by omega)) h1
  have e2 := hexDigit_inj16 _ _ (Nat.mod_lt _ (by omega)) (Nat.mod_lt _ (by omega)) h2
  omega

/-- The hex representation determines the byte list, for byte values. -/
theorem bytesHex_inj : ∀ l1 l2 : List Nat, (∀ b ∈ l1, b < 256) → (∀ b ∈ l2, b < 256) →
    bytesHex l1 = bytesHex l2 → l1 = l2 := by
  intro l1
  induction l1 with
  | nil =>
    intro l2 _ _ h
    cases l2 with
    | nil => rfl
    | cons b u => simp [bytesHex, hexByte] at h
  | cons a t ih =>
    intro l2 h1 h2 h
    cases l2 with
    | nil => simp [bytesHex, hexByte] at h
    | cons b u =>
      simp only [bytesHex, List.map_cons, List.flatten_cons] at h
      have hlen : (hexByte a).length = (hexByte b).length := by simp [hexByte]
      obtain ⟨hh, ht⟩ := List.append_inj h hlen
      have hab : a = b := hexByte_inj256 (h1 a (by simp)) (h2 b (by simp)) hh
      subst hab
      have htu : t = u :=
        ih u (fun x hx => h1 x (by simp [hx])) (fun x hx => h2 x (by simp [hx]))
          (by simpa [bytesHex] using ht)
      rw [htu]

/-- A list of length at least four starts with four explicit elements. -/
theorem exists_cons4_of_le (l : List Nat) (h : 4 ≤ l.length) :
    ∃ a b c d t, l = a :: b :: c :: d :: t := by
  rcases l with _ | ⟨a, _ | ⟨b, _ | ⟨c, _ | ⟨d, t⟩⟩⟩⟩
  · exact absurd h (by decide)
  · exact absurd h (by simp)
  · exact absurd h (by simp)
  · exact absurd h (by simp)
  · exact ⟨a, b, c, d, t, rfl⟩

/-- A list whose first four elements are known decomposes into them. -/
theorem take4_shape (l : List Nat) (a b c d : Nat) (h : l.take 4 = [a, b, c, d]) :
    ∃ t, l = a :: b :: c :: d :: t := by
  have hlen : 4 ≤ l.length := by
    have hl := congrArg List.length h
    simp [List.length_take] at hl
    omega
  obtain ⟨a', b', c', d', t, rfl⟩ := exists_cons4_of_le l hlen
  rw [show (a' :: b' :: c' :: d' :: t).take 4 = [a', b', c', d'] from rfl] at h
  obtain ⟨rfl, rfl, rfl, rfl⟩ := by simpa using h
  exact ⟨t, rfl⟩

/-- C5: on every byte buffer whose first four bytes are the RIFF signature
52 49 46 46 (no signature-table pattern prefixes such a buffer, as the proof
shows by evaluation), getMimeTypeFromBuffer returns audio/wav when the buffer
has at least 12 bytes and bytes 8 to 12 are WAVE (57 41 56 45), video/avi
when they are AVI-space (41 56 49 20), and fails with Mime type unknown when
the buffer is shorter than 12 bytes or when bytes 8 to 12 are anything else. -/
theorem C5_riff_sniffing (buf : List Nat)
    (hb : ∀ b ∈ buf, b < 256)
    (h4 : buf.take 4 = [82, 73, 70, 70]) :
    ((buf.drop 8).take 4 = [87, 65, 86, 69] → 11 < buf.length →
        getMimeTypeFromBuffer buf = Except.ok "audio/wav") ∧
    ((buf.drop 8).take 4 = [65, 86, 73, 32] → 11 < buf.length →
        getMimeTypeFromBuffer buf = Except.ok "video/avi") ∧
    (buf.length < 12 → getMimeTypeFromBuffer buf = Except.error "Mime type unknown") ∧
    ((buf.drop 8).take 4 ≠ [87, 65, 86, 69] → (buf.drop 8).take 4 ≠ [65, 86, 73, 32] →
        getMimeTypeFromBuffer buf = Except.error "Mime type unknown") := by
  obtain ⟨t, rfl⟩ := take4_shape buf 82 73 70 70 h4
  refine ⟨?_, ?_, ?_, ?_⟩
  · intro h8 hlen
    have ht8 : 8 ≤ t.length := by
      have := hlen
      simp only [List.length_cons] at this
      omega
    obtain ⟨t0, t1, t2, t3, r, rfl⟩ := exists_cons4_of_le t (by omega)
    obtain ⟨u, rfl⟩ := take4_shape r 87 65 86 69 h8
    have h1 : signatures.find? (fun p => p.1.isPrefixOf
        (bytesHex ((82 :: 73 :: 70 :: 70 :: t0 :: t1 :: t2 :: t3 :: 87 :: 65 :: 86 :: 69 :: u : List Nat).take 16))) = none := rfl
    simp only [getMimeTypeFromBuffer, h1]
    rw [if_pos ⟨rfl, hlen⟩]
    rw [if_pos (show bytesHex (((82 :: 73 :: 70 :: 70 :: t0 :: t1 :: t2 :: t3 :: 87 :: 65 :: 86 :: 69 :: u : List Nat).drop 8).take 4) = "57415645".toList from rfl)]
  · intro h8 hlen
    have ht8 : 8 ≤ t.length := by
      have := hlen
      simp only [List.length_cons] at this
      omega
    obtain ⟨t0, t1, t2, t3, r, rfl⟩ := exists_cons4_of_le t (by omega)
    obtain ⟨u, rfl⟩ := take4_shape r 65 86 73 32 h8
    have h1 : signatures.find? (fun p => p.1.isPrefixOf
        (bytesHex ((82 :: 73 :: 70 :: 70 :: t0 :: t1 :: t2 :: t3 :: 65 :: 86 :: 73 :: 32 :: u : List Nat).take 16))) = none := rfl
    simp only [getMimeTypeFromBuffer, h1]
    rw [if_pos ⟨rfl, hlen⟩]
    rw [if_neg (show ¬(bytesHex (((82 :: 73 :: 70 :: 70 :: t0 :: t1 :: t2 :: t3 :: 65 :: 86 :: 73 :: 32 :: u : List Nat).drop 8).take 4) = "57415645".toList) from
      (by decide : ¬(("41564920".toList : List Char) = "57415645".toList)))]
    rw [if_pos (show bytesHex (((82 :: 73 :: 70 :: 70 :: t0 :: t1 :: t2 :: t3 :: 65 :: 86 :: 73 :: 32 :: u : List Nat).drop 8).take 4) = "41564920".toList from rfl)]
  · intro hshort
    have h1 : signatures.find? (fun p => p.1.isPrefixOf
        (bytesHex ((82 :: 73 :: 70 :: 70 :: t : List Nat).take 16))) = none := rfl
    simp only [getMimeTypeFromBuffer, h1]
    rw [if_neg]
    rintro ⟨-, hl⟩
    omega
  · intro hw ha
    by_cases hlen : 11 < (82 :: 73 :: 70 :: 70 :: t : List Nat).length
    · have ht8 : 8 ≤ t.length := by
        have := hlen
        simp only [List.length_cons] at this
        omega
      obtain ⟨t0, t1, t2, t3, r, rfl⟩ := exists_cons4_of_le t (by omega)
      obtain ⟨b4, b5, b6, b7, u, rfl⟩ := exists_cons4_of_le r (by
        have := hlen
        simp only [List.length_cons] at this
        omega)
      have hmem : ∀ x ∈ ((82 :: 73 :: 70 :: 70 :: t0 :: t1 :: t2 :: t3 :: b4 :: b5 :: b6 :: b7 :: u : List Nat).drop 8).take 4, x < 256 :=
        fun x hx => hb x (List.mem_of_mem_drop (List.mem_of_mem_take hx))
      have h1 : signatures.find? (fun p => p.1.isPrefixOf
          (bytesHex ((82 :: 73 :: 70 :: 70 :: t0 :: t1 :: t2 :: t3 :: b4 :: b5 :: b6 :: b7 :: u : List Nat).take 16))) = none := rfl
      simp only [getMimeTypeFromBuffer, h1]
      rw [if_pos ⟨rfl, hlen⟩]
      rw [if_neg (fun heq => hw (bytesHex_inj _ _ hmem (by decide)
        (heq.trans (show ("57415645".toList : List Char) = bytesHex [87, 65, 86, 69] from rfl))))]
      rw [if_neg (fun heq => ha (bytesHex_inj _ _ hmem (by decide)
        (heq.trans (show ("41564920".toList : List Char) = bytesHex [65, 86, 73, 32] from rfl))))]
    · have h1 : signatures.find? (fun p => p.1.isPrefixOf
          (bytesHex ((82 :: 73 :: 70 :: 70 :: t : List Nat).take 16))) = none := rfl
      simp only [getMimeTypeFromBuffer, h1]
      rw [if_neg]
      rintro ⟨-, hl⟩
      exact hlen hl

/-- Witness for C5 at a 12-byte RIFF WAVE buffer. -/
theorem C5_riff_sniffing_witness :
    getMimeTypeFromBuffer [82, 73, 70, 70, 1, 2, 3, 4, 87, 65, 86, 69] = Except.ok "audio/wav" :=
  (C5_riff_sniffing [82, 73, 70, 70, 1, 2, 3, 4, 87, 65, 86, 69] (by decide) (by decide)).1
    (by decide) (by decide)

/-! Unfolding equations of the scan loops, and structural lemmas shared by the
remaining claims. -/

/-- One step of the scan loop with the while condition false. -/
theorem loop_none (full bb : List Nat) (fuel lastIdx : Nat) (data : FormData) :
    multipartLoop full bb (fuel + 1) lastIdx none data = some (Except.ok data) := rfl

/-- One step of the scan loop with a current delimiter position. -/
theorem loop_step (full bb : List Nat) (fuel lastIdx idx : Nat) (data : FormData) :
    multipartLoop full bb (fuel + 1) lastIdx (some idx) data =
      match indexOf? full bb (idx + 1) with
      | none => some (Except.ok data)
      | some endIdx =>
        match classifySegment (segAt full bb idx endIdx) with
        | Except.error e => some (Except.error e)
        | Except.ok none => multipartLoop full bb fuel lastIdx (some idx) data
        | Except.ok (some (nm, entry)) =>
          multipartLoop full bb fuel endIdx (indexOf? full bb endIdx) (upsert data nm entry) := rfl

/-- One step of the traced scan loop with the while condition false. -/
theorem loopTr_none (full bb : List Nat) (fuel lastIdx : Nat) (data : FormData)
    (tr : List (List Nat × Entry)) :
    multipartLoopTr full bb (fuel + 1) lastIdx none data tr = some (Except.ok (data, tr)) := rfl

/-- One step of the traced scan loop with a current delimiter position. -/
theorem loopTr_step (full bb : List Nat) (fuel lastIdx idx : Nat) (data : FormData)
    (tr : List (List Nat × Entry)) :
    multipartLoopTr full bb (fuel + 1) lastIdx (some idx) data tr =
      match indexOf? full bb (idx + 1) with
      | none => some (Except.ok (data, tr))
      | some endIdx =>
        match classifySegment (segAt full bb idx endIdx) with
        | Except.error e => some (Except.error e)
        | Except.ok none => multipartLoopTr full bb fuel lastIdx (some idx) data tr
        | Except.ok (some (nm, entry)) =>
          multipartLoopTr full bb fuel endIdx (indexOf? full bb endIdx)
            (upsert data nm entry) (tr ++ [(nm, entry)]) := rfl

/-- The quoted-capture extractor only returns nonempty captures: the regex
class requires at least one non-quote character. -/
theorem extractQuoted_ne_nil : ∀ (s marker nm : List Nat),
    extractQuoted marker s = some nm → nm ≠ [] := by
  intro s
  induction s with
  | nil => intro marker nm h; simp [extractQuoted] at h
  | cons b rest ih =>
    intro marker nm h
    simp only [extractQuoted] at h
    split at h
    · rename_i cap heqT
      simp only [Option.some.injEq] at h
      subst h
      simp only [tryQuotedAt] at heqT
      split_ifs at heqT with h1 h2 h3
      simp only [Option.some.injEq] at heqT
      intro hnil
      exact h2 (by rw [heqT.trans hnil]; rfl)
    · rename_i heqT
      exact ih marker nm h

/-- Every recorded entry of classifySegment carries a nonempty name. -/
theorem classify_some_name_ne_nil (part nm : List Nat) (e : Entry)
    (h : classifySegment part = Except.ok (some (nm, e))) : nm ≠ [] := by
  unfold classifySegment at h
  split at h
  · exact absurd h (by simp)
  rename_i splitIdx heqS
  split at h
  · exact absurd h (by simp)
  rename_i nm' heqN
  split at h
  · split at h
    · exact absurd h (by simp)
    · simp only [Except.ok.injEq, Option.some.injEq, Prod.mk.injEq] at h
      obtain ⟨rfl, -⟩ := h
      exact extractQuoted_ne_nil _ _ _ heqN
  · simp only [Except.ok.injEq, Option.some.injEq, Prod.mk.injEq] at h
    obtain ⟨rfl, -⟩ := h
    exact extractQuoted_ne_nil _ _ _ heqN

/-- Membership after an object assignment: either an old entry or the new one. -/
theorem mem_upsert : ∀ (data : FormData) (k : List Nat) (v : Entry) (p : List Nat × Entry),
    p ∈ upsert data k v → p ∈ data ∨ p = (k, v) := by
  intro data
  induction data with
  | nil =>
    intro k v p hp
    simp only [upsert] at hp
    exact Or.inr (by simpa using hp)
  | cons q rest ih =>
    intro k v p hp
    simp only [upsert] at hp
    by_cases hq : q.1 = k
    · rw [if_pos hq] at hp
      rcases List.mem_cons.mp hp with h | h
      · exact Or.inr h
      · exact Or.inl (List.mem_cons_of_mem _ h)
    · rw [if_neg hq] at hp
      rcases List.mem_cons.mp hp with h | h
      · exact Or.inl (h ▸ List.mem_cons_self _ _)
      · rcases ih k v p h with h2 | h2
        · exact Or.inl (List.mem_cons_of_mem _ h2)
        · exact Or.inr h2

/-- Lookup after an object assignment: the assigned key now maps to the new
value, all other keys are untouched. -/
theorem lookup_upsert : ∀ (data : FormData) (k kk : List Nat) (v : Entry),
    lookupKey k (upsert data kk v) = if kk = k then some v else lookupKey k data := by
  intro data
  induction data with
  | nil => intro k kk v; rfl
  | cons q rest ih =>
    intro k kk v
    by_cases hq : q.1 = kk
    · simp only [upsert, if_pos hq, lookupKey]
      by_cases hk : kk = k
      · simp [hk]
      · simp [hk, hq]
    · simp only [upsert, if_neg hq, lookupKey]
      by_cases hqk : q.1 = k
      · have hkk : kk ≠ k := fun hh => hq (hqk.trans hh.symm)
        simp [hqk, hkk]
      · simp [hqk, ih k kk v]

/-- The plain loop is the traced loop with the trace forgotten. -/
theorem loop_agrees (full bb : List Nat) : ∀ (fuel lastIdx : Nat) (idxO : Option Nat)
    (data : FormData) (tr : List (List Nat × Entry)),
    multipartLoop full bb fuel lastIdx idxO data =
      (multipartLoopTr full bb fuel lastIdx idxO data tr).map (fun e => e.map Prod.fst) := by
  intro fuel
  induction fuel with
  | zero => intro l i d t; rfl
  | succ n ih =>
    intro l i d t
    cases i with
    | none => rfl
    | some idx =>
      rw [loop_step, loopTr_step]
      cases hE : indexOf? full bb (idx + 1) with
      | none => rfl
      | some endIdx =>
        simp only []
        cases hC : classifySegment (segAt full bb idx endIdx) with
        | error e => rfl
        | ok o =>
          cases o with
          | none => exact ih l (some idx) d t
          | some pr =>
            cases pr with
            | mk nm entry =>
              exact ih endIdx (indexOf? full bb endIdx) (upsert d nm entry) (t ++ [(nm, entry)])

/-- A successful traced run appends a suffix to the incoming trace, and the
final mapping is the fold of the object assignments of that suffix. -/
theorem loopTr_suffix (full bb : List Nat) : ∀ (fuel lastIdx : Nat) (idxO : Option Nat)
    (data : FormData) (tr : List (List Nat × Entry)) (res : FormData)
    (rtr : List (List Nat × Entry)),
    multipartLoopTr full bb fuel lastIdx idxO data tr = some (Except.ok (res, rtr)) →
    ∃ suf, rtr = tr ++ suf ∧ res = suf.foldl (fun m p => upsert m p.1 p.2) data := by
  intro fuel
  induction fuel with
  | zero => intro l i d t res rtr h; exact absurd h (by simp [multipartLoopTr])
  | succ n ih =>
    intro l i d t res rtr h
    cases i with
    | none =>
      rw [loopTr_none] at h
      simp only [Option.some.injEq, Except.ok.injEq, Prod.mk.injEq] at h
      obtain ⟨rfl, rfl⟩ := h
      exact ⟨[], by simp, rfl⟩
    | some idx =>
      rw [loopTr_step] at h
      cases hE : indexOf? full bb (idx + 1) with
      | none =>
        rw [hE] at h
        simp only [] at h
        simp only [Option.some.injEq, Except.ok.injEq, Prod.mk.injEq] at h
        obtain ⟨rfl, rfl⟩ := h
        exact ⟨[], by simp, rfl⟩
      | some endIdx =>
        rw [hE] at h
        simp only [] at h
        cases hC : classifySegment (segAt full bb idx endIdx) with
        | error e =>
          rw [hC] at h
          simp only [] at h
          exact absurd h (by simp)
        | ok o =>
          cases o with
          | none =>
            rw [hC] at h
            simp only [] at h
            exact ih l (some idx) d t res rtr h
          | some pr =>
            cases pr with
            | mk nm entry =>
              rw [hC] at h
              simp only [] at h
              obtain ⟨suf, hr, hs⟩ :=
                ih endIdx (indexOf? full bb endIdx) (upsert d nm entry) (t ++ [(nm, entry)]) res rtr h
              refine ⟨(nm, entry) :: suf, ?_, hs⟩
              rw [hr, List.append_assoc]
              rfl

/-- Lookup in a fold of object assignments: the last assignment of the key
wins, and keys never assigned keep their value of the base object. -/
theorem lookup_foldl_upsert (k : List Nat) : ∀ (rs : List (List Nat × Entry)) (data : FormData),
    lookupKey k (rs.foldl (fun m p => upsert m p.1 p.2) data) =
      match rs.reverse.find? (fun p => decide (p.1 = k)) with
      | some p => some p.2
      | none => lookupKey k data := by
  intro rs
  induction rs with
  | nil => intro data; rfl
  | cons q rest ih =>
    intro data
    rw [List.foldl_cons, ih (upsert data q.1 q.2), List.reverse_cons, List.find?_append]
    cases hF : rest.reverse.find? (fun p => decide (p.1 = k)) with
    | some p => rfl
    | none =>
      rw [lookup_upsert]
      by_cases hq : q.1 = k
      · simp [List.find?, hq, Option.none_or]
      · simp [List.find?, hq, Option.none_or]

/-- Peeling the header checks of parseMultipart off a successful parse. -/
theorem parse_ok_inner (hdr : List Char) (body : List Nat) (res : FormData)
    (h : parseMultipart hdr body = some (Except.ok res)) :
    ∃ b, ("multipart/form-data".toList.isPrefixOf hdr) = true ∧ findBoundary hdr = some b ∧
      multipartLoop body (strBytes ("--") ++ charsBytes b) (body.length + 2) 0
        (indexOf? body (strBytes ("--") ++ charsBytes b) 0) [] = some (Except.ok res) := by
  unfold parseMultipart at h
  by_cases hp : ("multipart/form-data".toList.isPrefixOf hdr) = true
  · rw [if_pos hp] at h
    cases hB : findBoundary hdr with
    | none => rw [hB] at h; simp only [] at h; exact absurd h (by simp)
    | some b => rw [hB] at h; simp only [] at h; exact ⟨b, hp, rfl, h⟩
  · rw [if_neg hp] at h; exact absurd h (by simp)

/-- Peeling the header checks of parseMultipartTr off a successful parse. -/
theorem parseTr_ok_inner (hdr : List Char) (body : List Nat) (res : FormData)
    (tr : List (List Nat × Entry))
    (h : parseMultipartTr hdr body = some (Except.ok (res, tr))) :
    ∃ b, ("multipart/form-data".toList.isPrefixOf hdr) = true ∧ findBoundary hdr = some b ∧
      multipartLoopTr body (strBytes ("--") ++ charsBytes b) (body.length + 2) 0
        (indexOf? body (strBytes ("--") ++ charsBytes b) 0) [] [] = some (Except.ok (res, tr)) := by
  unfold parseMultipartTr at h
  by_cases hp : ("multipart/form-data".toList.isPrefixOf hdr) = true
  · rw [if_pos hp] at h
    cases hB : findBoundary hdr with
    | none => rw [hB] at h; simp only [] at h; exact absurd h (by simp)
    | some b => rw [hB] at h; simp only [] at h; exact ⟨b, hp, rfl, h⟩
  · rw [if_neg hp] at h; exact absurd h (by simp)

/-! Claim C6: duplicate field names, last occurrence wins. -/

/-- C6: whenever the parse resolves, the mapping binds each name to the value
of the last part recorded under that name in body order: parseMultipartTr
returns (with the same result as parseMultipart, first conjunct) the
chronological trace of recorded parts, and looking a name up in the result
yields exactly the last trace entry of that name (none if the name was never
recorded). In particular two fields sharing one name resolve to the later
value. -/
theorem C6_duplicate_names_last_wins (hdr : List Char) (body : List Nat)
    (res : FormData) (tr : List (List Nat × Entry)) (k : List Nat)
    (h : parseMultipartTr hdr body = some (Except.ok (res, tr))) :
    parseMultipart hdr body = some (Except.ok res) ∧
    lookupKey k res = (tr.reverse.find? (fun p => decide (p.1 = k))).map Prod.snd := by
  obtain ⟨b, hp, hB, hL⟩ := parseTr_ok_inner hdr body res tr h
  constructor
  · unfold parseMultipart
    rw [if_pos hp, hB]
    simp only []
    rw [loop_agrees body (strBytes ("--") ++ charsBytes b) (body.length + 2) 0
      (indexOf? body (strBytes ("--") ++ charsBytes b) 0) [] []]
    rw [hL]
    rfl
  · obtain ⟨suf, hr, hs⟩ := loopTr_suffix body (strBytes ("--") ++ charsBytes b)
      (body.length + 2) 0 (indexOf? body (strBytes ("--") ++ charsBytes b) 0) [] [] res tr hL
    have hsuf : suf = tr := by simpa using hr.symm
    rw [hs, hsuf, lookup_foldl_upsert]
    cases tr.reverse.find? (fun p => decide (p.1 = k)) <;> rfl

/-- Witness for C6 at the two-field body with name x and values first then
second: the parse resolves, the trace holds both parts in body order, and the
lookup of x gives the later value second. -/
theorem C6_duplicate_names_last_wins_witness :
    lookupKey (strBytes ("x")) [(strBytes ("x"), Entry.field (strBytes ("second")))] =
      some (Entry.field (strBytes ("second"))) := by
  have h := C6_duplicate_names_last_wins c6hdr c6body
    [(strBytes ("x"), Entry.field (strBytes ("second")))]
    [(strBytes ("x"), Entry.field (strBytes ("first"))),
     (strBytes ("x"), Entry.field (strBytes ("second")))]
    (strBytes ("x")) (by rfl)
  exact h.2.trans (by rfl)

/-! Claim C10: all keys of a resolved mapping are nonempty. -/

/-- The scan loop preserves nonemptiness of all recorded keys. -/
theorem loop_keys (full bb : List Nat) : ∀ (fuel lastIdx : Nat) (idxO : Option Nat)
    (data res : FormData),
    multipartLoop full bb fuel lastIdx idxO data = some (Except.ok res) →
    (∀ p ∈ data, p.1 ≠ []) → ∀ p ∈ res, p.1 ≠ [] := by
  intro fuel
  induction fuel with
  | zero => intro l i d res h _; exact absurd h (by simp [multipartLoop])
  | succ n ih =>
    intro l i d res h hd
    cases i with
    | none =>
      rw [loop_none] at h
      simp only [Option.some.injEq, Except.ok.injEq] at h
      subst h
      exact hd
    | some idx =>
      rw [loop_step] at h
      cases hE : indexOf? full bb (idx + 1) with
      | none =>
        rw [hE] at h
        simp only [] at h
        simp only [Option.some.injEq, Except.ok.injEq] at h
        subst h
        exact hd
      | some endIdx =>
        rw [hE] at h
        simp only [] at h
        cases hC : classifySegment (segAt full bb idx endIdx) with
        | error e =>
          rw [hC] at h
          simp only [] at h
          exact absurd h (by simp)
        | ok o =>
          cases o with
          | none =>
            rw [hC] at h
            simp only [] at h
            exact ih l (some idx) d res h hd
          | some pr =>
            cases pr with
            | mk nm entry =>
              rw [hC] at h
              simp only [] at h
              refine ih endIdx (indexOf? full bb endIdx) (upsert d nm entry) res h ?_
              intro p hp
              rcases mem_upsert d nm entry p hp with hmem | hnew
              · exact hd p hmem
              · rw [hnew]
                exact classify_some_name_ne_nil _ _ _ hC

/-- C10: every key of a mapping that parseMultipart resolves with is a
nonempty byte string: names come from the name pattern whose capture class
requires at least one character, and nameless segments are never recorded. -/
theorem C10_keys_nonempty (hdr : List Char) (body : List Nat) (res : FormData)
    (h : parseMultipart hdr body = some (Except.ok res)) :
    ∀ p ∈ res, p.1 ≠ [] := by
  obtain ⟨b, hp, hB, hL⟩ := parse_ok_inner hdr body res h
  exact loop_keys body (strBytes ("--") ++ charsBytes b) (body.length + 2) 0
    (indexOf? body (strBytes ("--") ++ charsBytes b) 0) [] res hL (by simp)

/-- Witness for C10 at a one-field body: the recorded key k is nonempty. -/
theorem C10_keys_nonempty_witness :
    (strBytes ("k"), Entry.field (strBytes ("v"))).1 ≠ [] :=
  C10_keys_nonempty c10hdr c10body [(strBytes ("k"), Entry.field (strBytes ("v")))] (by rfl)
    (strBytes ("k"), Entry.field (strBytes ("v"))) (by simp)

/-! Claim C3: an unrecognized file type aborts the whole parse. -/

/-- C3 counterexample to the claim as stated: this body does contain a file
part whose bytes 00 01 02 03 match no signature and are not RIFF, yet
parseMultipart does not reject with Mime type unknown — a malformed
divider-less segment earlier in the body makes the scan loop spin forever (the
C1 defect), so the parse never settles at all. -/
theorem C3_stated_counterexample :
    parseMultipart hdrB c3body = none ∧
    parseMultipart hdrB c3body ≠ some (Except.error "Mime type unknown") := by
  have h0 : parseMultipart hdrB c3body = none := rfl
  refine ⟨h0, fun h => ?_⟩
  rw [h0] at h
  exact Option.noConfusion h

/-- C3 amended: whenever the delimiter scan reaches a part segment that has a
divider, a name and a filename marker, and the MIME sniffer fails on its body
bytes, the whole loop returns the Mime type unknown error at once — whatever
mapping had been accumulated is discarded, so no partial mapping is ever
returned. (The amendment restricts the original claim to bodies in which the
scan actually reaches the file part, that is, no earlier segment is
malformed.) -/
theorem C3_unknown_mime_aborts (full bb : List Nat)
    (fuel lastIdx idx endIdx splitIdx : Nat) (nm : List Nat) (data : FormData)
    (hE : indexOf? full bb (idx + 1) = some endIdx)
    (hS : indexOf? (segAt full bb idx endIdx) crlf2 0 = some splitIdx)
    (hN : extractQuoted nameMarker (partInfo (segAt full bb idx endIdx) splitIdx) = some nm)
    (hF : containsSub (partInfo (segAt full bb idx endIdx) splitIdx) fnMarker = true)
    (hM : getMimeTypeFromBuffer (partBody (segAt full bb idx endIdx) splitIdx) =
      Except.error "Mime type unknown") :
    multipartLoop full bb (fuel + 1) lastIdx (some idx) data =
      some (Except.error "Mime type unknown") := by
  have hC : classifySegment (segAt full bb idx endIdx) = Except.error "Mime type unknown" := by
    unfold classifySegment
    rw [hS]
    simp only []
    rw [hN]
    simp only []
    rw [if_pos hF, hM]
  simp only [loop_step, hE, hC]

/-- Witness for the amended C3 at a body whose first segment is a file part
with unsniffable bytes: the loop rejects immediately. -/
theorem C3_unknown_mime_aborts_witness :
    multipartLoop c3wfull bbY 1 0 (some 0) [] = some (Except.error "Mime type unknown") :=
  C3_unknown_mime_aborts c3wfull bbY 0 0 0 69 56 (strBytes ("f")) []
    (by rfl) (by rfl) (by rfl) (by rfl) (by rfl)

/-! Claim C9: an empty filename attribute yields an empty fileName. -/

/-- C9 counterexample to the claim as stated: this part header contains the
empty filename attribute (and a name attribute), yet the recorded FileEntry
carries fileName b, not the empty string — the filename regex skips the empty
occurrence and matches the later non-empty filename attribute of the same
header. -/
theorem C9_stated_counterexample :
    parseMultipart c9hdr c9body =
      some (Except.ok [(strBytes ("a"), Entry.file
        ⟨[137, 80, 78, 71, 13, 10, 26, 10], strBytes ("b"), strBytes ("7bit"), "image/png"⟩)]) ∧
    strBytes ("b") ≠ [] := by
  exact ⟨rfl, by decide⟩

/-- C9 amended: whenever the delimiter scan reaches a part segment whose
header block contains the filename marker but no non-empty filename attribute
anywhere (in particular a single empty filename attribute), together with a
name, the loop classifies the part as a file and records at that name a
FileEntry whose fileName is the empty byte string. -/
theorem C9_empty_filename_records_empty (full bb : List Nat)
    (fuel lastIdx idx endIdx splitIdx : Nat) (nm : List Nat) (data : FormData) (m : String)
    (hE : indexOf? full bb (idx + 1) = some endIdx)
    (hS : indexOf? (segAt full bb idx endIdx) crlf2 0 = some splitIdx)
    (hN : extractQuoted nameMarker (partInfo (segAt full bb idx endIdx) splitIdx) = some nm)
    (hFm : containsSub (partInfo (segAt full bb idx endIdx) splitIdx) fnMarker = true)
    (hFe : extractQuoted fnMarker (partInfo (segAt full bb idx endIdx) splitIdx) = none)
    (hM : getMimeTypeFromBuffer (partBody (segAt full bb idx endIdx) splitIdx) = Except.ok m) :
    multipartLoop full bb (fuel + 1) lastIdx (some idx) data =
      multipartLoop full bb fuel endIdx (indexOf? full bb endIdx)
        (upsert data nm (Entry.file
          ⟨partBody (segAt full bb idx endIdx) splitIdx, [],
           (extractToken cteMarker (partInfo (segAt full bb idx endIdx) splitIdx)).getD
             (strBytes ("7bit")), m⟩)) := by
  have hC : classifySegment (segAt full bb idx endIdx) =
      Except.ok (some (nm, Entry.file
        ⟨partBody (segAt full bb idx endIdx) splitIdx, [],
         (extractToken cteMarker (partInfo (segAt full bb idx endIdx) splitIdx)).getD
           (strBytes ("7bit")), m⟩)) := by
    unfold classifySegment
    rw [hS]
    simp only []
    rw [hN]
    simp only []
    rw [if_pos hFm, hM]
    simp only []
    rw [hFe]
    rfl
  simp only [loop_step, hE, hC]

/-- Witness for the amended C9 at a one-part body whose only filename
attribute is empty: the loop records the file entry with empty fileName. -/
theorem C9_empty_filename_records_empty_witness :
    multipartLoop c9wfull bbZ 1 0 (some 0) [] =
      multipartLoop c9wfull bbZ 0 72 (indexOf? c9wfull bbZ 72)
        (upsert [] (strBytes ("a")) (Entry.file
          ⟨[137, 80, 78, 71, 13, 10, 26, 10], [], strBytes ("7bit"), "image/png"⟩)) :=
  C9_empty_filename_records_empty c9wfull bbZ 0 0 0 72 55 (strBytes ("a")) [] "image/png"
    (by rfl) (by rfl) (by rfl) (by rfl) (by rfl) (by rfl)

end IMP
